import Mathlib

/-!
Verification of the TechBlog post updater (src/blog_post_updater.py).

Python strings are modelled as lists of Unicode code points (`List Nat`);
the regex character classes of the slug generator are modelled over the
ASCII range, where all the checked behaviour lives.  The SQLite store is
modelled as one record of row lists; `datetime.datetime.now()` is passed
in explicitly as the `now` argument.  Python exceptions are modelled with
`Except`: the renderer's `KeyError` and `add_post`'s author-lookup
`ValueError` (the spec's `AuthorNotFound`) are the two exceptions the
embedded code can raise.
-/

/-- Code points of a string literal, used to transcribe the Python string
literals of the source. -/
def String.codes (s : String) : List Nat := s.toList.map Char.toNat

namespace TechBlog

/-- Python `str.lower` on one code point (ASCII range). -/
def lowerChar (c : Nat) : Nat := if 65 ≤ c ∧ c ≤ 90 then c + 32 else c

/-- ASCII alphanumeric: `[0-9A-Za-z]`. -/
def isAlnumChar (c : Nat) : Bool :=
  decide ((48 ≤ c ∧ c ≤ 57) ∨ (65 ≤ c ∧ c ≤ 90) ∨ (97 ≤ c ∧ c ≤ 122))

/-- Python regex class `\s` (ASCII range): space, tab, newline, carriage
return, vertical tab, form feed. -/
def isSpaceChar (c : Nat) : Bool :=
  decide (c = 32 ∨ c = 9 ∨ c = 10 ∨ c = 13 ∨ c = 11 ∨ c = 12)

/-- Python regex class `\w` (ASCII range): alphanumeric or underscore. -/
def isWordChar (c : Nat) : Bool := isAlnumChar c || decide (c = 95)

/-- Characters surviving `re.sub(r'[^\w\s-]', '', slug)` in `create_slug`. -/
def keepChar (c : Nat) : Bool := isWordChar c || isSpaceChar c || decide (c = 45)

/-- The class `[\s_-]` of `re.sub(r'[\s_-]+', '-', slug)`. -/
def runChar (c : Nat) : Bool := isSpaceChar c || decide (c = 95) || decide (c = 45)

/-- `re.sub(r'[\s_-]+', '-', slug)` as a left-to-right scan: `prev` records
whether the previous character belonged to a `[\s_-]` run, in which case a
further run character extends the run already replaced by one hyphen. -/
def collapseAux (prev : Bool) : List Nat → List Nat
  | [] => []
  | c :: cs =>
    if runChar c then
      if prev then collapseAux true cs else 45 :: collapseAux true cs
    else c :: collapseAux false cs

/-- `re.sub(r'[\s_-]+', '-', slug)`. -/
def collapseRuns (l : List Nat) : List Nat := collapseAux false l

/-- Python `slug.strip('-')`: drop leading and trailing hyphens (45). -/
def stripHyphens (l : List Nat) : List Nat :=
  ((l.dropWhile fun c => c == 45).reverse.dropWhile fun c => c == 45).reverse

/-- `TechBlogUpdater.create_slug`: lowercase, drop characters outside
`[\w\s-]`, collapse `[\s_-]` runs to one hyphen, strip edge hyphens. -/
def createSlug (title : List Nat) : List Nat :=
  stripHyphens (collapseRuns ((title.map lowerChar).filter keepChar))

/-- Modelled from the spec (§4.1 as worded by claim C3): keep only the
characters that are alphanumeric, whitespace, or hyphen — note this drops
underscores, unlike the source's `[^\w\s-]` removal. -/
def specKeepChar (c : Nat) : Bool := isAlnumChar c || isSpaceChar c || decide (c = 45)

/-- Modelled from the spec: replace each maximal run of
whitespace/underscore/hyphen characters by a single hyphen. -/
def specCollapse : List Nat → List Nat
  | [] => []
  | c :: cs =>
    if runChar c then 45 :: specCollapse (cs.dropWhile runChar)
    else c :: specCollapse cs
termination_by l => l.length
decreasing_by
  · exact Nat.lt_succ_of_le (List.dropWhile_sublist runChar).length_le
  · exact Nat.lt_succ_self cs.length

/-- Modelled from the spec: the slug algorithm exactly as claim C3 words
it (removal step keeps only alphanumeric, whitespace, hyphen). -/
def specSlug (title : List Nat) : List Nat :=
  stripHyphens (specCollapse ((title.map lowerChar).filter specKeepChar))

/-- The claim C3 algorithm amended: the removal step also keeps
underscores (Python's `\w` word characters), which the collapse step then
turns into hyphens. -/
def specSlugAmended (title : List Nat) : List Nat :=
  stripHyphens (specCollapse ((title.map lowerChar).filter keepChar))

/-- Characters that can occur in a finished slug: hyphen, digit, or
lowercase letter. -/
def slugChar (c : Nat) : Bool :=
  decide (c = 45 ∨ (48 ≤ c ∧ c ≤ 57) ∨ (97 ≤ c ∧ c ≤ 122))

/-- The exceptions the embedded code can raise: the renderer's `KeyError`
(carrying the missing key) and the author-lookup `ValueError` of
`add_post` ("Author with email ... not found"), which the spec names
`AuthorNotFound`. -/
inductive BlogError where
  | authorNotFound (email : List Nat)
  | keyError (key : List Nat)
deriving DecidableEq

/-- One content-section descriptor: the Python dict with the keys the
renderer reads, each optional exactly as dict lookup is. -/
structure ContentSection where
  type? : Option (List Nat)
  level? : Option Nat
  text? : Option (List Nat)
  language? : Option (List Nat)
  code? : Option (List Nat)
  items? : Option (List (List Nat))
  question? : Option (List Nat)
  answer? : Option (List Nat)
deriving DecidableEq

/-- The section `type` tags recognized by `format_content_with_styling`,
plus the dict keys and defaults it uses. -/
def typeHeading : List Nat := "heading".codes

def typeText : List Nat := "text".codes

def typeCode : List Nat := "code".codes

def typeList : List Nat := "list".codes

def typeFaq : List Nat := "faq".codes

def typeSectionEnd : List Nat := "section_end".codes

def keyText : List Nat := "text".codes

def keyCode : List Nat := "code".codes

def defaultLanguage : List Nat := "python".codes

def defaultQuestion : List Nat := "FAQ".codes

/-- Decimal rendering of an int interpolated into an f-string. -/
def natCodes (n : Nat) : List Nat := (Nat.repr n).codes

/-- `TechBlogUpdater.format_code_block`. -/
def formatCodeBlock (code language : List Nat) (index : Nat) : List Nat :=
  "<div class=\"code-box\">\n        <button class=\"copy-button\" onclick=\"copyToClipboard(".codes
    ++ natCodes index
    ++ ")\">Copy Code</button>\n        <pre><code class=\"language-".codes
    ++ language
    ++ "\">\n".codes
    ++ code
    ++ "\n        </code></pre>\n    </div>".codes

/-- The loop body of `format_content_with_styling`: `acc` is the
`content_html` accumulator and `codeIndex` the running `code_index`.
Returns the final accumulator and code index, or the `KeyError` raised by
a `section["text"]` / `section["code"]` access on a missing key. -/
def formatContentAux : List ContentSection → List Nat → Nat → Except BlogError (List Nat × Nat)
  | [], acc, codeIndex => .ok (acc, codeIndex)
  | s :: rest, acc, codeIndex =>
    let sectionType := s.type?.getD typeText
    if sectionType = typeHeading then
      match s.text? with
      | none => .error (.keyError keyText)
      | some t =>
        let level := s.level?.getD 2
        formatContentAux rest
          (acc ++ "<div class=\"section\">\n    <h".codes ++ natCodes level
            ++ ">".codes ++ t ++ "</h".codes ++ natCodes level ++ ">\n".codes)
          codeIndex
    else if sectionType = typeText then
      match s.text? with
      | none => .error (.keyError keyText)
      | some t =>
        formatContentAux rest (acc ++ "    <p>".codes ++ t ++ "</p>\n".codes) codeIndex
    else if sectionType = typeCode then
      let language := s.language?.getD defaultLanguage
      match s.code? with
      | none => .error (.keyError keyCode)
      | some c =>
        formatContentAux rest
          (acc ++ "    ".codes ++ formatCodeBlock c language codeIndex ++ "\n".codes)
          (codeIndex + 1)
    else if sectionType = typeList then
      let items := s.items?.getD []
      formatContentAux rest
        (acc ++ "    <ul>\n".codes
          ++ items.foldl (fun a item => a ++ "        <li>".codes ++ item ++ "</li>\n".codes) []
          ++ "    </ul>\n".codes)
        codeIndex
    else if sectionType = typeFaq then
      formatContentAux rest
        (acc ++ "    <div class=\"faq\">\n        <h3>".codes ++ s.question?.getD defaultQuestion
          ++ "</h3>\n        <p>".codes ++ s.answer?.getD [] ++ "</p>\n    </div>\n".codes)
        codeIndex
    else if sectionType = typeSectionEnd then
      formatContentAux rest (acc ++ "</div>\n\n".codes) codeIndex
    else
      formatContentAux rest acc codeIndex

/-- `TechBlogUpdater.format_content_with_styling`. -/
def formatContentWithStyling (sections : List ContentSection) : Except BlogError (List Nat) :=
  (formatContentAux sections [] 0).map fun r => r.1

/-- Resolved `type` of a descriptor (`section.get('type', 'text')`). -/
def sectionType (s : ContentSection) : List Nat := s.type?.getD typeText

/-- Whether a descriptor takes the `code` branch of the renderer. -/
def isCodeSection (s : ContentSection) : Bool := decide (sectionType s = typeCode)

/-- Number of `code` sections of a descriptor list. -/
def countCodeSections (l : List ContentSection) : Nat := (l.filter isCodeSection).length

/-- A descriptor on which the renderer cannot raise: `heading` and `text`
descriptors carry their `text`, `code` descriptors carry their `code`. -/
def wfSection (s : ContentSection) : Bool :=
  if sectionType s = typeHeading ∨ sectionType s = typeText then s.text?.isSome
  else if sectionType s = typeCode then s.code?.isSome
  else true

/-- Number of occurrences (start positions) of `p` as a contiguous
substring of `s`. -/
def countSubstr (p : List Nat) : List Nat → Nat
  | [] => if p.isPrefixOf ([] : List Nat) then 1 else 0
  | c :: rest => (if p.isPrefixOf (c :: rest) then 1 else 0) + countSubstr p rest

/-- Value of a successful render, empty on error (used to state concrete
facts about render output). -/
def exceptOut (e : Except BlogError (List Nat)) : List Nat := e.toOption.getD []

/-- Part of `css_template` before `{title}`. -/
def cssTemplatePart1 : List Nat :=
  "<!DOCTYPE html>\n<html lang=\"en\">\n<head>\n    <meta charset=\"UTF-8\">\n    <meta name=\"viewport\" content=\"width=device-width, initial-scale=1.0\">\n    <title>".codes

/-- Part of `css_template` between `{title}` and `{language}`. -/
def cssTemplatePart2 : List Nat :=
  "</title>\n    <link rel=\"stylesheet\" href=\"https://cdnjs.cloudflare.com/ajax/libs/prism/1.24.0/themes/prism.min.css\">\n    <script src=\"https://cdnjs.cloudflare.com/ajax/libs/prism/1.24.0/prism.min.js\"></script>\n    <script src=\"https://cdnjs.cloudflare.com/ajax/libs/prism/1.24.0/components/prism-".codes

/-- Part of `css_template` between `{language}` and `{content}` (the
`<style>` block; `{{`/`}}` unescape to single braces). -/
def cssTemplatePart3 : List Nat :=
  ".min.js\"></script>\n    <style>\n        pre[class*=\"language-\"],\n        code[class*=\"language-\"] \x7b\x7b\n            background-color: #ffffff !important;\n            color: #000000 !important;\n        \x7d\x7d\n        h1, h2, h3 \x7b\x7b\n            font-family: \x27Inter\x27, -apple-system, BlinkMacSystemFont, \x27Segoe UI\x27, Roboto, Oxygen, Ubuntu, Cantarell, \x27Open Sans\x27, \x27Helvetica Neue\x27, sans-serif;\n            font-size: 22px;\n        \x7d\x7d\n        .section \x7b\x7b\n            margin-bottom: 40px;\n        \x7d\x7d\n        .code-box \x7b\x7b\n            position: relative;\n            padding: 20px;\n            border-radius: 5px;\n            margin-bottom: 20px;\n            overflow: auto;\n            background-color: #ffffff;\n            border: 1px solid #ddd;\n        \x7d\x7d\n        .copy-button \x7b\x7b\n            background-color: #0074d9;\n            color: #fff;\n            border: none;\n            padding: 5px 10px;\n            border-radius: 5px;\n            cursor: pointer;\n            position: absolute;\n            top: 10px;\n            right: 10px;\n        \x7d\x7d\n        .copy-button.copied \x7b\x7b\n            background-color: #4CAF50;\n            transition: background-color 0.5s;\n        \x7d\x7d\n        pre \x7b\x7b\n            margin: 0;\n        \x7d\x7d\n        ul \x7b\x7b\n            padding-left: 20px;\n        \x7d\x7d\n        .faq \x7b\x7b\n            background-color: #fff;\n            border-left: 5px solid #0074d9;\n            padding: 15px 20px;\n            margin: 20px 0;\n        \x7d\x7d\n        .faq p \x7b\x7b\n            margin: 10px 0;\n        \x7d\x7d\n    </style>\n</head>\n<body>\n\n".codes

/-- Part of `css_template` after `{content}` (the copy-to-clipboard
script; `{{`/`}}` unescape to single braces). -/
def cssTemplatePart4 : List Nat :=
  "\n\n<script>\n    Prism.highlightAll();\n\n    function copyToClipboard(index) \x7b\x7b\n        const codeBlocks = document.querySelectorAll(\x27.code-box code\x27);\n        const selectedCode = codeBlocks[index].textContent;\n        const button = document.querySelectorAll(\x27.copy-button\x27)[index];\n        \n        const textarea = document.createElement(\x27textarea\x27);\n        textarea.value = selectedCode;\n        document.body.appendChild(textarea);\n        textarea.select();\n        document.execCommand(\x27copy\x27);\n        document.body.removeChild(textarea);\n\n        // Add the \x27copied\x27 class to change button color temporarily\n        button.classList.add(\x27copied\x27);\n        setTimeout(function() \x7b\x7b\n            button.classList.remove(\x27copied\x27);\n        \x7d\x7d, 500);\n    \x7d\x7d\n</script>\n</body>\n</html>".codes

/-- `self.css_template.format(title=..., language=..., content=...)`:
substitute the three slots of the fixed page template. -/
def cssTemplate (title language content : List Nat) : List Nat :=
  cssTemplatePart1 ++ title ++ cssTemplatePart2 ++ language ++ cssTemplatePart3
    ++ content ++ cssTemplatePart4

/-- Row of the `author` table (columns the code reads). -/
structure AuthorRow where
  id : Nat
  email : List Nat
deriving DecidableEq

/-- Row of the `category` table. -/
structure CategoryRow where
  id : Nat
  name : List Nat
  slug : List Nat
  description : List Nat
  color : List Nat
deriving DecidableEq

/-- Row of the `topic` table. -/
structure TopicRow where
  id : Nat
  name : List Nat
  slug : List Nat
deriving DecidableEq

/-- Row of the `post` table. -/
structure PostRow where
  id : Nat
  title : List Nat
  slug : List Nat
  excerpt : List Nat
  content : List Nat
  publishDate : List Nat
  readTime : Nat
  featured : Bool
  featuredImage : List Nat
  categoryId : Nat
  authorId : Nat
deriving DecidableEq

/-- Row of the `post_topics` table. -/
structure PostTopicRow where
  postId : Nat
  topicId : Nat
deriving DecidableEq

/-- The SQLite store, each table as its list of rows in rowid order. -/
structure DB where
  authors : List AuthorRow
  categories : List CategoryRow
  topics : List TopicRow
  posts : List PostRow
  postTopics : List PostTopicRow
deriving DecidableEq

/-- Rowid assigned by an insert: one past the largest existing id. -/
def freshId (ids : List Nat) : Nat := ids.foldr max 0 + 1

/-- `TechBlogUpdater.get_author_id`: `SELECT id FROM author WHERE email = ?`
with `fetchone`. -/
def getAuthorId (db : DB) (email : List Nat) : Option Nat :=
  (db.authors.find? fun a => a.email == email).map fun a => a.id

/-- Default `color` argument of `get_or_create_category`. -/
def defaultColor : List Nat := "#0074d9".codes

/-- `TechBlogUpdater.get_or_create_category`: look the slug up, return the
existing id, or insert a new row and return its id. -/
def getOrCreateCategory (db : DB) (name description color : List Nat) : Nat × DB :=
  let slug := createSlug name
  match db.categories.find? fun r => r.slug == slug with
  | some r => (r.id, db)
  | none =>
    let categoryId := freshId (db.categories.map fun r => r.id)
    (categoryId,
      ⟨db.authors, db.categories ++ [⟨categoryId, name, slug, description, color⟩],
        db.topics, db.posts, db.postTopics⟩)

/-- `TechBlogUpdater.get_or_create_topic`. -/
def getOrCreateTopic (db : DB) (name : List Nat) : Nat × DB :=
  let slug := createSlug name
  match db.topics.find? fun r => r.slug == slug with
  | some r => (r.id, db)
  | none =>
    let topicId := freshId (db.topics.map fun r => r.id)
    (topicId,
      ⟨db.authors, db.categories, db.topics ++ [⟨topicId, name, slug⟩],
        db.posts, db.postTopics⟩)

/-- The topic loop of `add_post`: for each topic name, resolve-or-create
the topic and insert one `post_topics` row. -/
def addTopics (db : DB) (postId : Nat) : List (List Nat) → DB
  | [] => db
  | topicName :: rest =>
    let res := getOrCreateTopic db topicName
    addTopics
      ⟨res.2.authors, res.2.categories, res.2.topics, res.2.posts,
        res.2.postTopics ++ [⟨postId, res.1⟩]⟩
      postId rest

/-- The arguments of `add_post`; `now` is the value of
`datetime.datetime.now().strftime(...)` at call time, passed explicitly. -/
structure AddPostArgs where
  title : List Nat
  excerpt : List Nat
  contentSections : List ContentSection
  categoryName : List Nat
  topics : List (List Nat)
  authorEmail : List Nat
  featured : Bool
  featuredImage : List Nat
  readTime : Nat
  primaryLanguage : List Nat
  now : List Nat
deriving DecidableEq

/-- The `try` block of `add_post`: author lookup (`if not author_id`
raises for a missing author and for id 0), slug, category get-or-create,
rendering, post insert, topic loop.  Returns the new post id and the
pending (uncommitted) store. -/
def addPostTx (db : DB) (a : AddPostArgs) : Except BlogError (Nat × DB) :=
  match getAuthorId db a.authorEmail with
  | none => .error (.authorNotFound a.authorEmail)
  | some authorId =>
    if authorId = 0 then .error (.authorNotFound a.authorEmail)
    else
      let slug := createSlug a.title
      let catRes := getOrCreateCategory db a.categoryName [] defaultColor
      match formatContentWithStyling a.contentSections with
      | .error e => .error e
      | .ok formattedContent =>
        let fullHtml := cssTemplate a.title a.primaryLanguage formattedContent
        let db1 := catRes.2
        let postId := freshId (db1.posts.map fun p => p.id)
        let db2 : DB :=
          ⟨db1.authors, db1.categories, db1.topics,
            db1.posts ++ [⟨postId, a.title, slug, a.excerpt, fullHtml, a.now,
              a.readTime, a.featured, a.featuredImage, catRes.1, authorId⟩],
            db1.postTopics⟩
        .ok (postId, addTopics db2 postId a.topics)

/-- `TechBlogUpdater.add_post`: run the `try` block; on success `commit`
makes the pending store the store, on any exception `rollback` restores
the original store and the exception is re-raised. -/
def addPost (db : DB) (a : AddPostArgs) : Except BlogError Nat × DB :=
  match addPostTx db a with
  | .ok res => (.ok res.1, res.2)
  | .error e => (.error e, db)

/-- Concrete inputs used by the witnesses and counterexamples. -/
def sampleUnderscore : List Nat := "a_b".codes

def sampleCicdName : List Nat := "CI/CD Pipeline".codes

def sampleCicdLower : List Nat := "ci cd pipeline".codes

def sampleCicdUpper : List Nat := "CI/CD PIPELINE".codes

def sampleCicdSlug : List Nat := "cicd-pipeline".codes

def sampleCiCdSlug : List Nat := "ci-cd-pipeline".codes

def sampleIntro : List Nat := "Introduction".codes

def sampleCodeBody : List Nat := "x = 1".codes

def sampleHeadingSec : ContentSection :=
  ⟨some typeHeading, some 2, some sampleIntro, none, none, none, none, none⟩

def sampleCodeSec : ContentSection :=
  ⟨some typeCode, none, none, some defaultLanguage, some sampleCodeBody, none, none, none⟩

def sampleHeadingNoText : ContentSection :=
  ⟨some typeHeading, none, none, none, none, none, none, none⟩

def sampleListNoItems : ContentSection :=
  ⟨some typeList, none, none, none, none, none, none, none⟩

def sampleFaqNoFields : ContentSection :=
  ⟨some typeFaq, none, none, none, none, none, none, none⟩

def sampleNoTypeSec : ContentSection :=
  ⟨none, none, some sampleIntro, none, none, none, none, none⟩

def sampleUnknownType : List Nat := "video".codes

def sampleUnknownSec : ContentSection :=
  ⟨some sampleUnknownType, none, some sampleIntro, none, none, none, none, none⟩

def sampleC8Sections : List ContentSection := [sampleHeadingSec, sampleCodeSec]

/-- The fragment rendered from `sampleC8Sections`. -/
def sampleC8Out : List Nat := exceptOut (formatContentWithStyling sampleC8Sections)

/-- A list of well-formed descriptors exercising every defaulted field. -/
def sampleWfSections : List ContentSection :=
  [sampleHeadingSec, sampleListNoItems, sampleFaqNoFields, sampleCodeSec]

def patCopy0 : List Nat := "copyToClipboard(0)".codes

def patCopyOpen : List Nat := "copyToClipboard(".codes

def patH2Intro : List Nat := "<h2>Introduction</h2>".codes

def sampleEmail : List Nat := "siddartha1192@gmail.com".codes

def sampleAuthorDb : DB := ⟨[⟨1, sampleEmail⟩], [], [], [], []⟩

def emptyDb : DB := ⟨[], [], [], [], []⟩

def sampleArgsRenderFail : AddPostArgs :=
  ⟨"Quick Test Post".codes, "A test".codes, [sampleHeadingNoText], "Tech News".codes,
    ["Testing".codes, "Database".codes], sampleEmail, false, [], 2, defaultLanguage,
    "2026-10-12 00:00:00.000000".codes⟩

def sampleArgsOk : AddPostArgs :=
  ⟨"Quick Test Post".codes, "A test".codes, [], "Tech News".codes,
    ["Testing".codes, "Database".codes], sampleEmail, false, [], 2, defaultLanguage,
    "2026-10-12 00:00:00.000000".codes⟩

/-! ### Slug generator: helper lemmas -/

/-- Unfolding equation of `specCollapse` on the empty list. -/
theorem specCollapse_nil : specCollapse [] = [] := by
  simp [specCollapse]

/-- Unfolding equation of `specCollapse` on a cons. -/
theorem specCollapse_cons (c : Nat) (cs : List Nat) :
    specCollapse (c :: cs) =
      if runChar c then 45 :: specCollapse (cs.dropWhile runChar)
      else c :: specCollapse cs := by
  rw [specCollapse.eq_def]

/-- The stateful scan of `collapseAux` agrees with the run-based reading
of `re.sub(r'[\s_-]+', '-', ...)`. -/
theorem collapseAux_eq_specCollapse (l : List Nat) :
    collapseAux false l = specCollapse l ∧
    collapseAux true l = specCollapse (l.dropWhile runChar) := by
  induction l with
  | nil =>
    refine ⟨specCollapse_nil.symm, ?_⟩
    rw [List.dropWhile_nil, specCollapse_nil]
    rfl
  | cons c cs ih =>
    cases h : runChar c with
    | true =>
      constructor
      · rw [collapseAux, specCollapse_cons]
        simp [h, List.dropWhile_cons, ih.2]
      · rw [collapseAux, List.dropWhile_cons]
        simp [h, ih.2]
    | false =>
      constructor
      · rw [collapseAux, specCollapse_cons]
        simp [h, ih.1]
      · rw [collapseAux, List.dropWhile_cons]
        simp only [h, Bool.false_eq_true, if_false]
        rw [specCollapse_cons]
        simp [h, ih.1]

/-- `str.lower` is idempotent on code points. -/
theorem lowerChar_idem (c : Nat) : lowerChar (lowerChar c) = lowerChar c := by
  unfold lowerChar
  split_ifs <;> omega

/-- `str.lower` never produces an uppercase letter. -/
theorem lowerChar_not_upper (c : Nat) : ¬ (65 ≤ lowerChar c ∧ lowerChar c ≤ 90) := by
  unfold lowerChar
  split_ifs <;> omega

/-- Slug characters are fixed by `str.lower`. -/
theorem slugChar_lower_fix (c : Nat) (h : slugChar c = true) : lowerChar c = c := by
  simp only [slugChar, decide_eq_true_eq] at h
  unfold lowerChar
  split_ifs <;> omega

/-- Slug characters survive the `[^\w\s-]` removal. -/
theorem slugChar_keep (c : Nat) (h : slugChar c = true) : keepChar c = true := by
  simp only [slugChar, decide_eq_true_eq] at h
  simp only [keepChar, isWordChar, isAlnumChar, isSpaceChar, Bool.or_eq_true,
    decide_eq_true_eq]
  omega

/-- On slug characters, the `[\s_-]` class is exactly the hyphen. -/
theorem slugChar_run_iff (c : Nat) (h : slugChar c = true) :
    runChar c = true ↔ c = 45 := by
  simp only [slugChar, decide_eq_true_eq] at h
  simp only [runChar, isSpaceChar, Bool.or_eq_true, decide_eq_true_eq]
  omega

/-- Every character of a collapsed list is a hyphen or a non-run
character of the input. -/
theorem mem_collapseAux (prev : Bool) (l : List Nat) (c : Nat)
    (h : c ∈ collapseAux prev l) : c = 45 ∨ (c ∈ l ∧ runChar c = false) := by
  induction l generalizing prev with
  | nil => cases h
  | cons d ds ih =>
    cases hd : runChar d with
    | true =>
      rw [collapseAux] at h
      simp only [hd, if_true] at h
      cases prev with
      | false =>
        simp only [Bool.false_eq_true, if_false] at h
        rcases List.mem_cons.mp h with h45 | h2
        · exact Or.inl h45
        · rcases ih true h2 with h45 | ⟨hm, hr⟩
          · exact Or.inl h45
          · exact Or.inr ⟨List.mem_cons_of_mem d hm, hr⟩
      | true =>
        simp only [if_true] at h
        rcases ih true h with h45 | ⟨hm, hr⟩
        · exact Or.inl h45
        · exact Or.inr ⟨List.mem_cons_of_mem d hm, hr⟩
    | false =>
      rw [collapseAux] at h
      simp only [hd, Bool.false_eq_true, if_false] at h
      rcases List.mem_cons.mp h with hc | h2
      · subst hc
        exact Or.inr ⟨List.mem_cons_self c ds, hd⟩
      · rcases ih false h2 with h45 | ⟨hm, hr⟩
        · exact Or.inl h45
        · exact Or.inr ⟨List.mem_cons_of_mem d hm, hr⟩

/-- Non-run survivors of the lowercase-then-filter steps are slug
characters. -/
theorem filtered_slugChar (s : List Nat) (c : Nat)
    (hc : c ∈ (s.map lowerChar).filter keepChar) (hr : runChar c = false) :
    slugChar c = true := by
  rcases List.mem_filter.mp hc with ⟨hmem, hkeep⟩
  rcases List.mem_map.mp hmem with ⟨y, _, hy⟩
  have hup := lowerChar_not_upper y
  rw [hy] at hup
  simp only [keepChar, isWordChar, isAlnumChar, isSpaceChar, Bool.or_eq_true,
    decide_eq_true_eq] at hkeep
  simp only [runChar, isSpaceChar, Bool.or_eq_true, decide_eq_true_eq,
    Bool.not_eq_true, Bool.or_eq_false_iff, decide_eq_false_iff_not] at hr
  simp only [slugChar, decide_eq_true_eq]
  omega

/-- Characters of stripped lists come from the input. -/
theorem mem_of_mem_stripHyphens (l : List Nat) (c : Nat)
    (h : c ∈ stripHyphens l) : c ∈ l := by
  unfold stripHyphens at h
  rw [List.mem_reverse] at h
  have h2 := (List.dropWhile_sublist fun c => c == 45).mem h
  rw [List.mem_reverse] at h2
  exact (List.dropWhile_sublist fun c => c == 45).mem h2

/-- Every character of a finished slug is a hyphen, digit, or lowercase
letter. -/
theorem createSlug_chars (s : List Nat) (c : Nat) (h : c ∈ createSlug s) :
    slugChar c = true := by
  have h1 := mem_of_mem_stripHyphens _ _ h
  rcases mem_collapseAux false _ c h1 with h45 | ⟨hm, hr⟩
  · subst h45
    decide
  · exact filtered_slugChar s c hm hr

/-- Adjacent-character relation of collapsed output: never two run-class
characters in a row. -/
def noRunPair (a b : Nat) : Prop := runChar a = false ∨ runChar b = false

/-- After a run has just been replaced, the next emitted character is not
a run character. -/
theorem collapseAux_true_head (l : List Nat) (c : Nat)
    (h : (collapseAux true l).head? = some c) : runChar c = false := by
  induction l with
  | nil => cases h
  | cons d ds ih =>
    cases hd : runChar d with
    | true =>
      rw [collapseAux] at h
      simp only [hd, if_true] at h
      exact ih h
    | false =>
      rw [collapseAux] at h
      simp only [hd, Bool.false_eq_true, if_false, List.head?_cons,
        Option.some.injEq] at h
      rw [← h]
      exact hd

/-- Collapsed output never has two adjacent run-class characters. -/
theorem collapseAux_chain (prev : Bool) (l : List Nat) :
    List.Chain' noRunPair (collapseAux prev l) := by
  induction l generalizing prev with
  | nil => exact List.chain'_nil
  | cons d ds ih =>
    cases hd : runChar d with
    | true =>
      cases prev with
      | false =>
        rw [collapseAux]
        simp only [hd, if_true, Bool.false_eq_true, if_false]
        rw [List.chain'_cons']
        refine ⟨?_, ih true⟩
        intro y hy
        exact Or.inr (collapseAux_true_head ds y hy)
      | true =>
        rw [collapseAux]
        simp only [hd, if_true]
        exact ih true
    | false =>
      rw [collapseAux]
      simp only [hd, Bool.false_eq_true, if_false]
      rw [List.chain'_cons']
      refine ⟨?_, ih false⟩
      intro y _
      exact Or.inl hd

/-- Dropping a prefix preserves the adjacency invariant. -/
theorem chain'_dropWhile {R : Nat → Nat → Prop} (p : Nat → Bool) (l : List Nat)
    (h : List.Chain' R l) : List.Chain' R (l.dropWhile p) := by
  induction l with
  | nil => exact h
  | cons c cs ih =>
    rw [List.dropWhile_cons]
    by_cases hc : p c = true
    · simp only [hc, if_true]
      exact ih h.tail
    · simp only [hc, Bool.false_eq_true, if_false]
      exact h

/-- Reversal preserves the (symmetric) adjacency invariant. -/
theorem chain'_noRunPair_reverse (l : List Nat) (h : List.Chain' noRunPair l) :
    List.Chain' noRunPair l.reverse := by
  rw [List.chain'_reverse]
  exact h.imp (fun a b hab => hab.symm)

/-- Stripping edge hyphens preserves the adjacency invariant. -/
theorem chain'_stripHyphens (l : List Nat) (h : List.Chain' noRunPair l) :
    List.Chain' noRunPair (stripHyphens l) := by
  unfold stripHyphens
  exact chain'_noRunPair_reverse _
    (chain'_dropWhile _ _ (chain'_noRunPair_reverse _ (chain'_dropWhile _ _ h)))

/-- On a list of slug characters with no adjacent run characters, the
collapse pass is the identity (when no run is pending, or the head is not
a run character). -/
theorem collapseAux_fixed (l : List Nat) (prev : Bool)
    (hok : ∀ c ∈ l, slugChar c = true) (hch : List.Chain' noRunPair l)
    (hprev : prev = true → ∀ c, l.head? = some c → runChar c = false) :
    collapseAux prev l = l := by
  induction l generalizing prev with
  | nil => rfl
  | cons c cs ih =>
    cases hr : runChar c with
    | true =>
      have hc45 : c = 45 :=
        (slugChar_run_iff c (hok c (List.mem_cons_self c cs))).mp hr
      cases prev with
      | false =>
        rw [collapseAux]
        simp only [hr, if_true, Bool.false_eq_true, if_false]
        rw [hc45]
        congr 1
        refine ih true (fun d hd => hok d (List.mem_cons_of_mem c hd)) hch.tail ?_
        intro _ d hd
        rcases List.chain'_cons'.mp hch with ⟨hhead, _⟩
        rcases hhead d hd with h1 | h2
        · rw [hr] at h1
          cases h1
        · exact h2
      | true => exact absurd (hprev rfl c rfl) (by simp [hr])
    | false =>
      rw [collapseAux]
      simp only [hr, Bool.false_eq_true, if_false]
      congr 1
      exact ih false (fun d hd => hok d (List.mem_cons_of_mem c hd)) hch.tail
        (fun h => nomatch h)

/-- The head of a `dropWhile` result fails the predicate. -/
theorem dropWhile_head_false (p : Nat → Bool) (l : List Nat) (c : Nat)
    (h : (l.dropWhile p).head? = some c) : p c = false := by
  induction l with
  | nil => cases h
  | cons d ds ih =>
    rw [List.dropWhile_cons] at h
    cases hd : p d with
    | true =>
      simp only [hd, if_true] at h
      exact ih h
    | false =>
      simp only [hd, Bool.false_eq_true, if_false, List.head?_cons,
        Option.some.injEq] at h
      rw [← h]
      exact hd

/-- `dropWhile` is the identity when the head already fails the
predicate. -/
theorem dropWhile_eq_self_of_head (p : Nat → Bool) (l : List Nat)
    (h : ∀ c, l.head? = some c → p c = false) : l.dropWhile p = l := by
  cases l with
  | nil => rfl
  | cons c cs =>
    rw [List.dropWhile_cons]
    simp only [h c rfl, Bool.false_eq_true, if_false]

/-- `strip('-')` is the identity when neither end is a hyphen. -/
theorem stripHyphens_eq_self (l : List Nat)
    (hhead : ∀ c, l.head? = some c → (c == 45) = false)
    (hlast : ∀ c, l.getLast? = some c → (c == 45) = false) :
    stripHyphens l = l := by
  unfold stripHyphens
  rw [dropWhile_eq_self_of_head _ _ hhead]
  rw [dropWhile_eq_self_of_head _ _ (fun c hc => hlast c ((List.head?_reverse l) ▸ hc))]
  exact List.reverse_reverse l

/-- The head of a stripped list is not a hyphen. -/
theorem stripHyphens_head (l : List Nat) (c : Nat)
    (h : (stripHyphens l).head? = some c) : (c == 45) = false := by
  have hA : l.dropWhile (fun x => x == 45) =
      stripHyphens l ++ ((l.dropWhile fun x => x == 45).reverse.takeWhile
        fun x => x == 45).reverse := by
    unfold stripHyphens
    rw [← List.reverse_append,
      List.takeWhile_append_dropWhile (fun x => x == 45)
        (l.dropWhile fun x => x == 45).reverse,
      List.reverse_reverse]
  apply dropWhile_head_false (fun x => x == 45) l c
  rw [hA]
  cases hS : stripHyphens l with
  | nil =>
    rw [hS] at h
    cases h
  | cons c0 t =>
    rw [hS] at h
    rw [List.cons_append, List.head?_cons]
    rw [List.head?_cons] at h
    exact h

/-- The last character of a stripped list is not a hyphen. -/
theorem stripHyphens_getLast (l : List Nat) (c : Nat)
    (h : (stripHyphens l).getLast? = some c) : (c == 45) = false := by
  unfold stripHyphens at h
  rw [List.getLast?_reverse] at h
  exact dropWhile_head_false _ _ c h

/-- `strip('-')` is idempotent. -/
theorem stripHyphens_idem (l : List Nat) :
    stripHyphens (stripHyphens l) = stripHyphens l :=
  stripHyphens_eq_self _ (stripHyphens_head l) (stripHyphens_getLast l)

/-- Mapping a pointwise-fixed function is the identity. -/
theorem map_fixed (f : Nat → Nat) (l : List Nat) (h : ∀ c ∈ l, f c = c) :
    l.map f = l := by
  induction l with
  | nil => rfl
  | cons c cs ih =>
    rw [List.map_cons, h c (List.mem_cons_self c cs),
      ih (fun d hd => h d (List.mem_cons_of_mem c hd))]

/-! ### Claim theorems: slug generator -/

/-- Claim C3, counterexample: on the input `"a_b"` the code keeps the
underscore (Python `\w`) and collapses it to a hyphen, producing `"a-b"`,
while the claimed algorithm (remove every character that is not
alphanumeric, whitespace, or hyphen) produces `"ab"`. -/
theorem claim_C3_counterexample : createSlug sampleUnderscore ≠ specSlug sampleUnderscore := by
  unfold specSlug
  rw [← (collapseAux_eq_specCollapse _).1]
  decide

/-- Claim C3, amended: `create_slug` lowercases, removes every character
that is not a word character (alphanumeric or underscore), whitespace, or
hyphen, collapses each run of whitespace/underscore/hyphen characters
into a single hyphen, strips edge hyphens; empty input yields the empty
slug and no input raises. -/
theorem claim_C3_amended :
    (∀ s : List Nat, createSlug s = specSlugAmended s) ∧ createSlug [] = [] := by
  constructor
  · intro s
    unfold createSlug specSlugAmended collapseRuns
    rw [(collapseAux_eq_specCollapse _).1]
  · rfl

/-- Claim C7, counterexample: `create_slug "CI/CD Pipeline"` is
`"cicd-pipeline"` (the slash is removed, not hyphenated), not the claimed
`"ci-cd-pipeline"`, which only `create_slug "ci cd pipeline"` yields. -/
theorem claim_C7_counterexample :
    createSlug sampleCicdName = sampleCicdSlug ∧
    createSlug sampleCicdLower = sampleCiCdSlug ∧
    createSlug sampleCicdName ≠ createSlug sampleCicdLower := by
  refine ⟨by decide, by decide, by decide⟩

/-- Claim C7, amended: two names differing only in case map to the same
slug; non-alphanumeric punctuation is removed rather than hyphenated, so
`create_slug "CI/CD Pipeline"` yields `"cicd-pipeline"` while
`create_slug "ci cd pipeline"` yields `"ci-cd-pipeline"`. -/
theorem claim_C7_amended :
    (∀ s t : List Nat, s.map lowerChar = t.map lowerChar → createSlug s = createSlug t) ∧
    createSlug sampleCicdName = sampleCicdSlug ∧
    createSlug sampleCicdLower = sampleCiCdSlug := by
  refine ⟨?_, by decide, by decide⟩
  intro s t h
  unfold createSlug
  rw [h]

/-- Claim C7 witness: the case-insensitivity part applied to the two
casings of `"CI/CD Pipeline"`. -/
theorem claim_C7_witness :
    createSlug sampleCicdName = createSlug sampleCicdUpper :=
  claim_C7_amended.1 sampleCicdName sampleCicdUpper (by decide)

/-- Claim C6: slug generation is idempotent. -/
theorem claim_C6 (s : List Nat) : createSlug (createSlug s) = createSlug s := by
  have hok : ∀ c ∈ createSlug s, slugChar c = true := createSlug_chars s
  have hmap : (createSlug s).map lowerChar = createSlug s :=
    map_fixed _ _ (fun c hc => slugChar_lower_fix c (hok c hc))
  have hfilter : (createSlug s).filter keepChar = createSlug s :=
    List.filter_eq_self.mpr (fun c hc => slugChar_keep c (hok c hc))
  have hchain : List.Chain' noRunPair (createSlug s) :=
    chain'_stripHyphens _ (collapseAux_chain false _)
  have hcol : collapseRuns (createSlug s) = createSlug s :=
    collapseAux_fixed _ false hok hchain (fun h => nomatch h)
  show stripHyphens (collapseRuns (((createSlug s).map lowerChar).filter keepChar)) =
    createSlug s
  rw [hmap, hfilter, hcol]
  exact stripHyphens_idem _

/-! ### Store operations: helper lemmas -/

/-- Elements on the left of a `Forall₂` are each related to something. -/
theorem forall₂_mem_left {α β : Type} {R : α → β → Prop} {l1 : List α} {l2 : List β}
    (h : List.Forall₂ R l1 l2) : ∀ x ∈ l1, ∃ y, R x y := by
  induction h with
  | nil =>
    intro x hx
    cases hx
  | cons hR _ ih =>
    intro x hx
    rcases List.mem_cons.mp hx with h1 | h2
    · exact ⟨_, h1 ▸ hR⟩
    · exact ih x h2

/-- `get_or_create_category` touches only the category table, inserting
at most one row. -/
theorem getOrCreateCategory_spec (db : DB) (n d c : List Nat) :
    (getOrCreateCategory db n d c).2.authors = db.authors ∧
    (getOrCreateCategory db n d c).2.topics = db.topics ∧
    (getOrCreateCategory db n d c).2.posts = db.posts ∧
    (getOrCreateCategory db n d c).2.postTopics = db.postTopics ∧
    ((getOrCreateCategory db n d c).2.categories = db.categories ∨
      ∃ row, (getOrCreateCategory db n d c).2.categories = db.categories ++ [row]) := by
  cases hf : db.categories.find? fun r => r.slug == createSlug n with
  | some r => simp [getOrCreateCategory, hf]
  | none => simp [getOrCreateCategory, hf]

/-- `get_or_create_topic` touches only the topic table, inserting at most
one row, and its result id names a topic row carrying the name's slug. -/
theorem getOrCreateTopic_spec (db : DB) (n : List Nat) :
    (getOrCreateTopic db n).2.authors = db.authors ∧
    (getOrCreateTopic db n).2.categories = db.categories ∧
    (getOrCreateTopic db n).2.posts = db.posts ∧
    (getOrCreateTopic db n).2.postTopics = db.postTopics ∧
    (∃ ext, (getOrCreateTopic db n).2.topics = db.topics ++ ext ∧ ext.length ≤ 1) ∧
    (∃ tr, tr ∈ (getOrCreateTopic db n).2.topics ∧ tr.id = (getOrCreateTopic db n).1 ∧
      tr.slug = createSlug n) := by
  cases hf : db.topics.find? fun r => r.slug == createSlug n with
  | some r =>
    have hmem := List.mem_of_find?_eq_some hf
    have hslug := List.find?_some hf
    simp only [beq_iff_eq] at hslug
    have hres : getOrCreateTopic db n = (r.id, db) := by
      simp [getOrCreateTopic, hf]
    rw [hres]
    exact ⟨rfl, rfl, rfl, rfl, ⟨[], by simp, by simp⟩, ⟨r, hmem, rfl, hslug⟩⟩
  | none =>
    have hres : getOrCreateTopic db n =
        (freshId (db.topics.map fun r => r.id),
          ⟨db.authors, db.categories,
            db.topics ++ [⟨freshId (db.topics.map fun r => r.id), n, createSlug n⟩],
            db.posts, db.postTopics⟩) := by
      simp [getOrCreateTopic, hf]
    rw [hres]
    exact ⟨rfl, rfl, rfl, rfl,
      ⟨[⟨freshId (db.topics.map fun r => r.id), n, createSlug n⟩], rfl, by simp⟩,
      ⟨⟨freshId (db.topics.map fun r => r.id), n, createSlug n⟩, by simp, rfl, rfl⟩⟩

/-- The topic loop touches only the topic and association tables: it
appends exactly one association row per topic name (in list order, each
linking the given post to a topic row carrying that name's slug) and at
most one topic row per name. -/
theorem addTopics_spec (ts : List (List Nat)) (db : DB) (postId : Nat) :
    (addTopics db postId ts).authors = db.authors ∧
    (addTopics db postId ts).categories = db.categories ∧
    (addTopics db postId ts).posts = db.posts ∧
    (∃ ext, (addTopics db postId ts).topics = db.topics ++ ext ∧ ext.length ≤ ts.length) ∧
    (∃ links, (addTopics db postId ts).postTopics = db.postTopics ++ links ∧
      List.Forall₂
        (fun (lnk : PostTopicRow) (nm : List Nat) =>
          lnk.postId = postId ∧
          ∃ tr, tr ∈ (addTopics db postId ts).topics ∧ tr.id = lnk.topicId ∧
            tr.slug = createSlug nm)
        links ts) := by
  induction ts generalizing db with
  | nil =>
    exact ⟨rfl, rfl, rfl, ⟨[], (List.append_nil _).symm, by simp⟩,
      ⟨[], (List.append_nil _).symm, List.Forall₂.nil⟩⟩
  | cons nm rest ih =>
    have hstep : addTopics db postId (nm :: rest) =
        addTopics (⟨(getOrCreateTopic db nm).2.authors, (getOrCreateTopic db nm).2.categories,
          (getOrCreateTopic db nm).2.topics, (getOrCreateTopic db nm).2.posts,
          (getOrCreateTopic db nm).2.postTopics ++ [⟨postId, (getOrCreateTopic db nm).1⟩]⟩ : DB)
          postId rest := rfl
    obtain ⟨hgA, hgC, hgP, hgPT, ⟨ext0, hgT, hgTl⟩, ⟨tr, htrMem, htrId, htrSlug⟩⟩ :=
      getOrCreateTopic_spec db nm
    obtain ⟨hA, hC, hP, ⟨ext, hT, hTl⟩, ⟨links, hPT, hF⟩⟩ :=
      ih (⟨(getOrCreateTopic db nm).2.authors, (getOrCreateTopic db nm).2.categories,
        (getOrCreateTopic db nm).2.topics, (getOrCreateTopic db nm).2.posts,
        (getOrCreateTopic db nm).2.postTopics ++ [⟨postId, (getOrCreateTopic db nm).1⟩]⟩ : DB)
    rw [hstep]
    refine ⟨by rw [hA]; exact hgA, by rw [hC]; exact hgC, by rw [hP]; exact hgP,
      ⟨ext0 ++ ext, ?_, ?_⟩,
      ⟨⟨postId, (getOrCreateTopic db nm).1⟩ :: links, ?_, ?_⟩⟩
    · rw [hT]
      show (getOrCreateTopic db nm).2.topics ++ ext = db.topics ++ (ext0 ++ ext)
      rw [hgT, List.append_assoc]
    · rw [List.length_append, List.length_cons]
      omega
    · rw [hPT]
      show (getOrCreateTopic db nm).2.postTopics ++ [⟨postId, (getOrCreateTopic db nm).1⟩]
          ++ links = db.postTopics ++ (⟨postId, (getOrCreateTopic db nm).1⟩ :: links)
      rw [hgPT, List.append_assoc]
      rfl
    · refine List.Forall₂.cons ⟨rfl, ⟨tr, ?_, htrId, htrSlug⟩⟩ hF
      rw [hT]
      exact List.mem_append_left ext htrMem

/-- A successful `add_post` transaction, relative to the starting store:
one post row appended, at most one category row, at most one topic row
per topic name, and exactly one association row per topic name in list
order. -/
theorem addPostTx_ok_spec (db : DB) (a : AddPostArgs) (pid : Nat) (db2 : DB)
    (h : addPostTx db a = .ok (pid, db2)) :
    db2.authors = db.authors ∧
    (db2.categories = db.categories ∨ ∃ row, db2.categories = db.categories ++ [row]) ∧
    (∃ post, db2.posts = db.posts ++ [post] ∧ post.id = pid) ∧
    (∃ ext, db2.topics = db.topics ++ ext ∧ ext.length ≤ a.topics.length) ∧
    (∃ links, db2.postTopics = db.postTopics ++ links ∧
      List.Forall₂
        (fun (lnk : PostTopicRow) (nm : List Nat) =>
          lnk.postId = pid ∧
          ∃ tr, tr ∈ db2.topics ∧ tr.id = lnk.topicId ∧ tr.slug = createSlug nm)
        links a.topics) := by
  cases hA : getAuthorId db a.authorEmail with
  | none => simp [addPostTx, hA] at h
  | some authorId =>
    simp only [addPostTx, hA] at h
    by_cases h0 : authorId = 0
    · rw [if_pos h0] at h
      exact absurd h (by simp)
    · rw [if_neg h0] at h
      cases hR : formatContentWithStyling a.contentSections with
      | error e => simp [hR] at h
      | ok fc =>
        simp only [hR, Except.ok.injEq, Prod.mk.injEq] at h
        obtain ⟨hgA, hgT, hgP, hgPT, hgC⟩ :=
          getOrCreateCategory_spec db a.categoryName [] defaultColor
        set cat := getOrCreateCategory db a.categoryName [] defaultColor with hcat
        obtain ⟨hpid, hdb⟩ := h
        obtain ⟨hA2, hC2, hP2, ⟨ext, hT2, hTl2⟩, ⟨links, hPT2, hF2⟩⟩ :=
          addTopics_spec a.topics
            (⟨cat.2.authors, cat.2.categories, cat.2.topics,
              cat.2.posts ++ [⟨freshId (cat.2.posts.map fun p => p.id), a.title,
                createSlug a.title, a.excerpt, cssTemplate a.title a.primaryLanguage fc,
                a.now, a.readTime, a.featured, a.featuredImage, cat.1, authorId⟩],
              cat.2.postTopics⟩)
            (freshId (cat.2.posts.map fun p => p.id))
        rw [← hdb]
        rw [← hpid]
        refine ⟨by rw [hA2]; exact hgA, ?_, ?_, ⟨ext, ?_, hTl2⟩, ⟨links, ?_, hF2⟩⟩
        · rw [hC2]
          exact hgC
        · exact ⟨_, by rw [hP2]; rw [hgP], by rw [hgP]⟩
        · rw [hT2]
          exact congrArg (fun l => l ++ ext) hgT
        · rw [hPT2]
          exact congrArg (fun l => l ++ links) hgPT

/-- A successful `add_post` is a committed successful transaction. -/
theorem addPost_ok_tx (db : DB) (a : AddPostArgs) (pid : Nat) (db2 : DB)
    (h : addPost db a = (.ok pid, db2)) : addPostTx db a = .ok (pid, db2) := by
  unfold addPost at h
  cases htx : addPostTx db a with
  | ok res =>
    rw [htx] at h
    simp only [Prod.mk.injEq, Except.ok.injEq] at h
    obtain ⟨h1, h2⟩ := h
    subst h1
    subst h2
    rfl
  | error e =>
    rw [htx] at h
    simp only [Prod.mk.injEq] at h
    exact absurd h.1 (by simp)

/-! ### Claim theorems: store operations -/

/-- Claim C4: `get_or_create_category` and `get_or_create_topic` perform
at most one insert per call (into their own table only), and a second
call with the same name returns the same identifier and inserts
nothing. -/
theorem claim_C4 (db : DB) (name description color : List Nat) :
    ((getOrCreateCategory db name description color).2.authors = db.authors ∧
     (getOrCreateCategory db name description color).2.topics = db.topics ∧
     (getOrCreateCategory db name description color).2.posts = db.posts ∧
     (getOrCreateCategory db name description color).2.postTopics = db.postTopics ∧
     ((getOrCreateCategory db name description color).2.categories = db.categories ∨
       ∃ row, (getOrCreateCategory db name description color).2.categories =
         db.categories ++ [row]) ∧
     (getOrCreateCategory (getOrCreateCategory db name description color).2
         name description color).1 =
       (getOrCreateCategory db name description color).1 ∧
     (getOrCreateCategory (getOrCreateCategory db name description color).2
         name description color).2 =
       (getOrCreateCategory db name description color).2) ∧
    ((getOrCreateTopic db name).2.authors = db.authors ∧
     (getOrCreateTopic db name).2.categories = db.categories ∧
     (getOrCreateTopic db name).2.posts = db.posts ∧
     (getOrCreateTopic db name).2.postTopics = db.postTopics ∧
     ((getOrCreateTopic db name).2.topics = db.topics ∨
       ∃ row, (getOrCreateTopic db name).2.topics = db.topics ++ [row]) ∧
     (getOrCreateTopic (getOrCreateTopic db name).2 name).1 =
       (getOrCreateTopic db name).1 ∧
     (getOrCreateTopic (getOrCreateTopic db name).2 name).2 =
       (getOrCreateTopic db name).2) := by
  constructor
  · cases hf : db.categories.find? fun r => r.slug == createSlug name with
    | some r => simp [getOrCreateCategory, hf]
    | none => simp [getOrCreateCategory, hf, List.find?_append, List.find?_cons]
  · cases hf : db.topics.find? fun r => r.slug == createSlug name with
    | some r => simp [getOrCreateTopic, hf]
    | none => simp [getOrCreateTopic, hf, List.find?_append, List.find?_cons]

/-- Claim C2: `add_post` with an author email matching no author row
raises `AuthorNotFound` and leaves the store unchanged. -/
theorem claim_C2 (db : DB) (a : AddPostArgs)
    (h : getAuthorId db a.authorEmail = none) :
    addPost db a = (.error (.authorNotFound a.authorEmail), db) := by
  have htx : addPostTx db a = .error (.authorNotFound a.authorEmail) := by
    simp only [addPostTx]
    rw [h]
  unfold addPost
  rw [htx]

/-- Claim C2 witness: the unknown-email case on a store with no
authors. -/
theorem claim_C2_witness :
    addPost emptyDb sampleArgsOk = (.error (.authorNotFound sampleArgsOk.authorEmail), emptyDb) :=
  claim_C2 emptyDb sampleArgsOk rfl

/-- Claim C1: when the `add_post` transaction raises, the store is
returned unchanged and the same exception is re-raised; on success the
post row and its association rows are committed together. -/
theorem claim_C1 (db : DB) (a : AddPostArgs) :
    (∀ e, addPostTx db a = .error e → addPost db a = (.error e, db)) ∧
    (∀ pid db2, addPost db a = (.ok pid, db2) →
      (∃ post, db2.posts = db.posts ++ [post] ∧ post.id = pid) ∧
      (∃ links, db2.postTopics = db.postTopics ++ links ∧
        ∀ lnk ∈ links, lnk.postId = pid)) := by
  constructor
  · intro e he
    unfold addPost
    rw [he]
  · intro pid db2 h
    obtain ⟨_, _, hposts, _, ⟨links, hl, hf⟩⟩ :=
      addPostTx_ok_spec db a pid db2 (addPost_ok_tx db a pid db2 h)
    refine ⟨hposts, ⟨links, hl, ?_⟩⟩
    intro lnk hmem
    obtain ⟨nm, hR⟩ := forall₂_mem_left hf lnk hmem
    exact hR.1

/-- Claim C1 witness: a run whose rendering step raises (after the
category step) rolls the store back and re-raises, on a concrete store
with one author. -/
theorem claim_C1_witness :
    addPost sampleAuthorDb sampleArgsRenderFail =
      (.error (.keyError keyText), sampleAuthorDb) :=
  (claim_C1 sampleAuthorDb sampleArgsRenderFail).1 (.keyError keyText) rfl

/-- Claim C9: a successful `add_post` with N topics creates exactly N
association rows — one per list element, in list order, each linking the
new post to a topic row carrying that element's slug — and at most N new
topic rows. -/
theorem claim_C9 (db : DB) (a : AddPostArgs) (pid : Nat) (db2 : DB)
    (h : addPost db a = (.ok pid, db2)) :
    (∃ links, db2.postTopics = db.postTopics ++ links ∧
      links.length = a.topics.length ∧
      List.Forall₂
        (fun (lnk : PostTopicRow) (nm : List Nat) =>
          lnk.postId = pid ∧
          ∃ tr, tr ∈ db2.topics ∧ tr.id = lnk.topicId ∧ tr.slug = createSlug nm)
        links a.topics) ∧
    db2.topics.length ≤ db.topics.length + a.topics.length := by
  obtain ⟨_, _, _, ⟨ext, ht, htl⟩, ⟨links, hl, hf⟩⟩ :=
    addPostTx_ok_spec db a pid db2 (addPost_ok_tx db a pid db2 h)
  refine ⟨⟨links, hl, hf.length_eq, hf⟩, ?_⟩
  rw [ht, List.length_append]
  omega

/-- Claim C9 witness: a successful concrete run with two topics. -/
theorem claim_C9_witness :
    (∃ links, (addPost sampleAuthorDb sampleArgsOk).2.postTopics =
        sampleAuthorDb.postTopics ++ links ∧
      links.length = sampleArgsOk.topics.length ∧
      List.Forall₂
        (fun (lnk : PostTopicRow) (nm : List Nat) =>
          lnk.postId = 1 ∧
          ∃ tr, tr ∈ (addPost sampleAuthorDb sampleArgsOk).2.topics ∧
            tr.id = lnk.topicId ∧ tr.slug = createSlug nm)
        links sampleArgsOk.topics) ∧
    (addPost sampleAuthorDb sampleArgsOk).2.topics.length ≤
      sampleAuthorDb.topics.length + sampleArgsOk.topics.length :=
  claim_C9 sampleAuthorDb sampleArgsOk 1 (addPost sampleAuthorDb sampleArgsOk).2 rfl

/-! ### Renderer: one-step unfolding lemmas, one per branch -/

/-- Heading branch of the renderer loop. -/
theorem formatStep_heading (s : ContentSection) (t : List Nat) (rest : List ContentSection)
    (acc : List Nat) (i : Nat)
    (hty : s.type?.getD typeText = typeHeading) (ht : s.text? = some t) :
    formatContentAux (s :: rest) acc i =
      formatContentAux rest
        (acc ++ "<div class=\"section\">\n    <h".codes ++ natCodes (s.level?.getD 2)
          ++ ">".codes ++ t ++ "</h".codes ++ natCodes (s.level?.getD 2) ++ ">\n".codes) i := by
  simp only [formatContentAux]
  rw [hty, if_pos rfl, ht]

/-- Heading branch raising `KeyError('text')`. -/
theorem formatStep_heading_err (s : ContentSection) (rest : List ContentSection)
    (acc : List Nat) (i : Nat)
    (hty : s.type?.getD typeText = typeHeading) (ht : s.text? = none) :
    formatContentAux (s :: rest) acc i = .error (.keyError keyText) := by
  simp only [formatContentAux]
  rw [hty, if_pos rfl, ht]

/-- Text branch of the renderer loop. -/
theorem formatStep_text (s : ContentSection) (t : List Nat) (rest : List ContentSection)
    (acc : List Nat) (i : Nat)
    (hty : s.type?.getD typeText = typeText) (ht : s.text? = some t) :
    formatContentAux (s :: rest) acc i =
      formatContentAux rest (acc ++ "    <p>".codes ++ t ++ "</p>\n".codes) i := by
  simp only [formatContentAux]
  rw [hty, if_neg (by decide), if_pos rfl, ht]

/-- Text branch raising `KeyError('text')`. -/
theorem formatStep_text_err (s : ContentSection) (rest : List ContentSection)
    (acc : List Nat) (i : Nat)
    (hty : s.type?.getD typeText = typeText) (ht : s.text? = none) :
    formatContentAux (s :: rest) acc i = .error (.keyError keyText) := by
  simp only [formatContentAux]
  rw [hty, if_neg (by decide), if_pos rfl, ht]

/-- Code branch of the renderer loop: uses the running code index and
increments it. -/
theorem formatStep_code (s : ContentSection) (c : List Nat) (rest : List ContentSection)
    (acc : List Nat) (i : Nat)
    (hty : s.type?.getD typeText = typeCode) (hc : s.code? = some c) :
    formatContentAux (s :: rest) acc i =
      formatContentAux rest
        (acc ++ "    ".codes ++ formatCodeBlock c (s.language?.getD defaultLanguage) i
          ++ "\n".codes) (i + 1) := by
  simp only [formatContentAux]
  rw [hty, if_neg (by decide), if_neg (by decide), if_pos rfl, hc]

/-- Code branch raising `KeyError('code')`. -/
theorem formatStep_code_err (s : ContentSection) (rest : List ContentSection)
    (acc : List Nat) (i : Nat)
    (hty : s.type?.getD typeText = typeCode) (hc : s.code? = none) :
    formatContentAux (s :: rest) acc i = .error (.keyError keyCode) := by
  simp only [formatContentAux]
  rw [hty, if_neg (by decide), if_neg (by decide), if_pos rfl, hc]

/-- List branch of the renderer loop. -/
theorem formatStep_list (s : ContentSection) (rest : List ContentSection)
    (acc : List Nat) (i : Nat) (hty : s.type?.getD typeText = typeList) :
    formatContentAux (s :: rest) acc i =
      formatContentAux rest
        (acc ++ "    <ul>\n".codes
          ++ (s.items?.getD []).foldl
            (fun a item => a ++ "        <li>".codes ++ item ++ "</li>\n".codes) []
          ++ "    </ul>\n".codes) i := by
  simp only [formatContentAux]
  rw [hty, if_neg (by decide), if_neg (by decide), if_neg (by decide), if_pos rfl]

/-- FAQ branch of the renderer loop. -/
theorem formatStep_faq (s : ContentSection) (rest : List ContentSection)
    (acc : List Nat) (i : Nat) (hty : s.type?.getD typeText = typeFaq) :
    formatContentAux (s :: rest) acc i =
      formatContentAux rest
        (acc ++ "    <div class=\"faq\">\n        <h3>".codes ++ s.question?.getD defaultQuestion
          ++ "</h3>\n        <p>".codes ++ s.answer?.getD [] ++ "</p>\n    </div>\n".codes) i := by
  simp only [formatContentAux]
  rw [hty, if_neg (by decide), if_neg (by decide), if_neg (by decide), if_neg (by decide),
    if_pos rfl]

/-- Section-end branch of the renderer loop. -/
theorem formatStep_sectionEnd (s : ContentSection) (rest : List ContentSection)
    (acc : List Nat) (i : Nat) (hty : s.type?.getD typeText = typeSectionEnd) :
    formatContentAux (s :: rest) acc i =
      formatContentAux rest (acc ++ "</div>\n\n".codes) i := by
  simp only [formatContentAux]
  rw [hty, if_neg (by decide), if_neg (by decide), if_neg (by decide), if_neg (by decide),
    if_neg (by decide), if_pos rfl]

/-- A descriptor whose resolved type matches none of the six recognized
tags contributes nothing and leaves the code index unchanged. -/
theorem formatStep_unknown (s : ContentSection) (ty : List Nat) (rest : List ContentSection)
    (acc : List Nat) (i : Nat) (hty : s.type?.getD typeText = ty)
    (h1 : ty ≠ typeHeading) (h2 : ty ≠ typeText) (h3 : ty ≠ typeCode)
    (h4 : ty ≠ typeList) (h5 : ty ≠ typeFaq) (h6 : ty ≠ typeSectionEnd) :
    formatContentAux (s :: rest) acc i = formatContentAux rest acc i := by
  simp only [formatContentAux]
  rw [hty, if_neg h1, if_neg h2, if_neg h3, if_neg h4, if_neg h5, if_neg h6]

/-- Whether a descriptor takes the code branch, from its resolved type. -/
theorem isCode_false_of (s : ContentSection) (ty : List Nat)
    (hty : s.type?.getD typeText = ty) (hne : ty ≠ typeCode) : isCodeSection s = false := by
  unfold isCodeSection sectionType
  rw [hty]
  exact decide_eq_false hne

theorem isCode_true_of (s : ContentSection)
    (hty : s.type?.getD typeText = typeCode) : isCodeSection s = true := by
  unfold isCodeSection sectionType
  rw [hty]
  exact decide_eq_true rfl

theorem countCode_cons_false (s : ContentSection) (rest : List ContentSection)
    (h : isCodeSection s = false) :
    countCodeSections (s :: rest) = countCodeSections rest := by
  simp [countCodeSections, List.filter_cons, h]

theorem countCode_cons_true (s : ContentSection) (rest : List ContentSection)
    (h : isCodeSection s = true) :
    countCodeSections (s :: rest) = countCodeSections rest + 1 := by
  simp [countCodeSections, List.filter_cons, h]

/-- Rendering succeeds whenever every heading/text descriptor carries its
`text` and every code descriptor carries its `code`. -/
theorem formatContentAux_ok (l : List ContentSection) :
    ∀ (acc : List Nat) (i : Nat), (∀ s ∈ l, wfSection s = true) →
      ∃ r, formatContentAux l acc i = .ok r := by
  induction l with
  | nil =>
    intro acc i _
    exact ⟨(acc, i), rfl⟩
  | cons s rest ih =>
    intro acc i hwf
    have hs := hwf s (List.mem_cons_self s rest)
    have hrest := fun d hd => hwf d (List.mem_cons_of_mem s hd)
    by_cases h1 : s.type?.getD typeText = typeHeading
    · have hs2 : s.text?.isSome = true := by
        unfold wfSection sectionType at hs
        rw [h1, if_pos (Or.inl rfl)] at hs
        exact hs
      obtain ⟨t, ht⟩ := Option.isSome_iff_exists.mp hs2
      rw [formatStep_heading s t rest acc i h1 ht]
      exact ih _ _ hrest
    · by_cases h2 : s.type?.getD typeText = typeText
      · have hs2 : s.text?.isSome = true := by
          unfold wfSection sectionType at hs
          rw [h2, if_pos (Or.inr rfl)] at hs
          exact hs
        obtain ⟨t, ht⟩ := Option.isSome_iff_exists.mp hs2
        rw [formatStep_text s t rest acc i h2 ht]
        exact ih _ _ hrest
      · by_cases h3 : s.type?.getD typeText = typeCode
        · have hs2 : s.code?.isSome = true := by
            unfold wfSection sectionType at hs
            rw [h3, if_neg (by decide), if_pos rfl] at hs
            exact hs
          obtain ⟨c, hc⟩ := Option.isSome_iff_exists.mp hs2
          rw [formatStep_code s c rest acc i h3 hc]
          exact ih _ _ hrest
        · by_cases h4 : s.type?.getD typeText = typeList
          · rw [formatStep_list s rest acc i h4]
            exact ih _ _ hrest
          · by_cases h5 : s.type?.getD typeText = typeFaq
            · rw [formatStep_faq s rest acc i h5]
              exact ih _ _ hrest
            · by_cases h6 : s.type?.getD typeText = typeSectionEnd
              · rw [formatStep_sectionEnd s rest acc i h6]
                exact ih _ _ hrest
              · rw [formatStep_unknown s (s.type?.getD typeText) rest acc i rfl
                  h1 h2 h3 h4 h5 h6]
                exact ih _ _ hrest

/-- On success, the final code index is the start index plus the number
of code sections: code blocks are numbered sequentially in document
order. -/
theorem formatContentAux_codeIndex (l : List ContentSection) :
    ∀ (acc : List Nat) (i : Nat) (out : List Nat) (j : Nat),
      formatContentAux l acc i = .ok (out, j) → j = i + countCodeSections l := by
  induction l with
  | nil =>
    intro acc i out j h
    simp only [formatContentAux, Except.ok.injEq, Prod.mk.injEq] at h
    rw [← h.2]
    simp [countCodeSections]
  | cons s rest ih =>
    intro acc i out j h
    by_cases h1 : s.type?.getD typeText = typeHeading
    · cases ht : s.text? with
      | none =>
        rw [formatStep_heading_err s rest acc i h1 ht] at h
        exact absurd h (by simp)
      | some t =>
        rw [formatStep_heading s t rest acc i h1 ht] at h
        rw [countCode_cons_false s rest (isCode_false_of s typeHeading h1 (by decide))]
        exact ih _ _ _ _ h
    · by_cases h2 : s.type?.getD typeText = typeText
      · cases ht : s.text? with
        | none =>
          rw [formatStep_text_err s rest acc i h2 ht] at h
          exact absurd h (by simp)
        | some t =>
          rw [formatStep_text s t rest acc i h2 ht] at h
          rw [countCode_cons_false s rest (isCode_false_of s typeText h2 (by decide))]
          exact ih _ _ _ _ h
      · by_cases h3 : s.type?.getD typeText = typeCode
        · cases hc : s.code? with
          | none =>
            rw [formatStep_code_err s rest acc i h3 hc] at h
            exact absurd h (by simp)
          | some c =>
            rw [formatStep_code s c rest acc i h3 hc] at h
            rw [countCode_cons_true s rest (isCode_true_of s h3)]
            have := ih _ _ _ _ h
            omega
        · by_cases h4 : s.type?.getD typeText = typeList
          · rw [formatStep_list s rest acc i h4] at h
            rw [countCode_cons_false s rest (isCode_false_of s typeList h4 (by decide))]
            exact ih _ _ _ _ h
          · by_cases h5 : s.type?.getD typeText = typeFaq
            · rw [formatStep_faq s rest acc i h5] at h
              rw [countCode_cons_false s rest (isCode_false_of s typeFaq h5 (by decide))]
              exact ih _ _ _ _ h
            · by_cases h6 : s.type?.getD typeText = typeSectionEnd
              · rw [formatStep_sectionEnd s rest acc i h6] at h
                rw [countCode_cons_false s rest
                  (isCode_false_of s typeSectionEnd h6 (by decide))]
                exact ih _ _ _ _ h
              · rw [formatStep_unknown s (s.type?.getD typeText) rest acc i rfl
                  h1 h2 h3 h4 h5 h6] at h
                rw [countCode_cons_false s rest (isCode_false_of s _ rfl h3)]
                exact ih _ _ _ _ h

/-! ### Claim theorems: renderer -/

/-- Claim C5, counterexample: a heading descriptor with no `text` field
makes rendering raise `KeyError('text')` — it does not degrade
gracefully. -/
theorem claim_C5_counterexample :
    formatContentWithStyling [sampleHeadingNoText] = .error (.keyError keyText) := rfl

/-- Claim C5, amended: rendering raises `KeyError` exactly where a
heading/text descriptor lacks `text` or a code descriptor lacks `code`;
for all other inputs it succeeds, with missing fields defaulted (heading
level to 2, items to the empty list, FAQ question to "FAQ" and answer to
the empty string). -/
theorem claim_C5_amended :
    (∀ l : List ContentSection, (∀ s ∈ l, wfSection s = true) →
      (formatContentWithStyling l).isOk = true) ∧
    (∀ t rest acc i,
      formatContentAux
          ((⟨some typeHeading, none, some t, none, none, none, none, none⟩ : ContentSection)
            :: rest) acc i =
        formatContentAux rest
          (acc ++ "<div class=\"section\">\n    <h".codes ++ natCodes 2 ++ ">".codes
            ++ t ++ "</h".codes ++ natCodes 2 ++ ">\n".codes) i) ∧
    (∀ rest acc i,
      formatContentAux (sampleListNoItems :: rest) acc i =
        formatContentAux rest (acc ++ "    <ul>\n".codes ++ "    </ul>\n".codes) i) ∧
    (∀ rest acc i,
      formatContentAux (sampleFaqNoFields :: rest) acc i =
        formatContentAux rest
          (acc ++ "    <div class=\"faq\">\n        <h3>".codes ++ defaultQuestion
            ++ "</h3>\n        <p>".codes ++ "</p>\n    </div>\n".codes) i) := by
  refine ⟨?_, ?_, ?_, ?_⟩
  · intro l hwf
    obtain ⟨r, hr⟩ := formatContentAux_ok l [] 0 hwf
    unfold formatContentWithStyling
    rw [hr]
    rfl
  · intro t rest acc i
    exact formatStep_heading
      (⟨some typeHeading, none, some t, none, none, none, none, none⟩ : ContentSection)
      t rest acc i rfl rfl
  · intro rest acc i
    rw [formatStep_list sampleListNoItems rest acc i rfl]
    simp [sampleListNoItems]
  · intro rest acc i
    rw [formatStep_faq sampleFaqNoFields rest acc i rfl]
    simp [sampleFaqNoFields]

/-- Claim C5 witness: a concrete well-formed list (with a defaulted
heading level, empty list, defaulted FAQ, and a code block) renders
successfully. -/
theorem claim_C5_witness :
    (formatContentWithStyling sampleWfSections).isOk = true :=
  claim_C5_amended.1 sampleWfSections (by decide)

set_option maxRecDepth 100000 in
/-- Claim C8: rendering is a pure function of the descriptor list; code
blocks are numbered sequentially from the start index in document order;
and the concrete heading-plus-code sequence renders with exactly one
`copyToClipboard(0)` reference and the heading text in `<h2>` tags. -/
theorem claim_C8 :
    (∀ l1 l2 : List ContentSection, l1 = l2 →
      formatContentWithStyling l1 = formatContentWithStyling l2) ∧
    (∀ (l : List ContentSection) (acc : List Nat) (i : Nat) (out : List Nat) (j : Nat),
      formatContentAux l acc i = .ok (out, j) → j = i + countCodeSections l) ∧
    ((formatContentWithStyling sampleC8Sections).isOk = true ∧
      countSubstr patCopy0 sampleC8Out = 1 ∧
      countSubstr patCopyOpen sampleC8Out = 1 ∧
      0 < countSubstr patH2Intro sampleC8Out) := by
  refine ⟨?_, ?_, ?_, ?_, ?_, ?_⟩
  · intro l1 l2 h
    rw [h]
  · exact formatContentAux_codeIndex
  · decide
  · decide
  · decide
  · decide

/-- Claim C8 witness: the determinism and numbering parts applied to the
concrete heading-plus-code sequence. -/
theorem claim_C8_witness :
    formatContentWithStyling sampleC8Sections = formatContentWithStyling sampleC8Sections ∧
    1 = 0 + countCodeSections sampleC8Sections :=
  ⟨claim_C8.1 sampleC8Sections sampleC8Sections rfl,
    claim_C8.2.1 sampleC8Sections [] 0 sampleC8Out 1 rfl⟩

/-- Claim C10: a descriptor with no `type` key renders as a text
paragraph, and one whose `type` is none of the six recognized kinds
contributes nothing and leaves the code numbering of later sections
unchanged. -/
theorem claim_C10 :
    (∀ (s : ContentSection) (t : List Nat) (rest : List ContentSection)
      (acc : List Nat) (i : Nat), s.type? = none → s.text? = some t →
      formatContentAux (s :: rest) acc i =
        formatContentAux rest (acc ++ "    <p>".codes ++ t ++ "</p>\n".codes) i) ∧
    (∀ (s : ContentSection) (ty : List Nat) (rest : List ContentSection)
      (acc : List Nat) (i : Nat), s.type? = some ty →
      ty ≠ typeHeading → ty ≠ typeText → ty ≠ typeCode →
      ty ≠ typeList → ty ≠ typeFaq → ty ≠ typeSectionEnd →
      formatContentAux (s :: rest) acc i = formatContentAux rest acc i) := by
  constructor
  · intro s t rest acc i hty htext
    exact formatStep_text s t rest acc i (by rw [hty]; rfl) htext
  · intro s ty rest acc i hty h1 h2 h3 h4 h5 h6
    exact formatStep_unknown s ty rest acc i (by rw [hty]; rfl) h1 h2 h3 h4 h5 h6

/-- Claim C10 witness: a concrete untyped descriptor and a concrete
`video`-typed descriptor. -/
theorem claim_C10_witness :
    (formatContentAux [sampleNoTypeSec] [] 0 =
      formatContentAux [] ([] ++ "    <p>".codes ++ sampleIntro ++ "</p>\n".codes) 0) ∧
    (formatContentAux [sampleUnknownSec] [] 0 = formatContentAux [] [] 0) :=
  ⟨claim_C10.1 sampleNoTypeSec sampleIntro [] [] 0 rfl rfl,
    claim_C10.2 sampleUnknownSec sampleUnknownType [] [] 0 rfl (by decide) (by decide)
      (by decide) (by decide) (by decide) (by decide)⟩

end TechBlog
